import Mathlib

/-!
Verification of the SprintAI backend against its design specification.

This file gives a shallow embedding of the two core modules:

* `post_scheduler.py` — the publish dispatcher: selection of pending posts,
  the three platform adapters (Facebook, Instagram, Google Business), and the
  per-post transition to `posted` / `failed` with companion publication rows.
* `content_qa.py` — the quality gate: recomputation of the average and
  verdict from the six dimension scores, the retry loop around the scoring
  oracle, and the application of a QA result to the content calendar.

Modelling conventions:

* HTTP traffic is modelled by a function `Net` from requests to either a
  transport error (timeout and friends, i.e. a raised `requests` exception)
  or a response carrying a numeric status and the string fields of the
  decoded JSON body.  `raise_for_status` corresponds to the `400 ≤ status`
  check (the `requests` library raises exactly for 4xx/5xx).
* Each adapter returns, next to its `Except` result, the list of HTTP
  requests it issued, so that "makes zero network calls" is a statement
  about an empty trace.
* Python truthiness of an optional string (`if not image_url`) is modelled
  by `strTruthy`: `None` and the empty string are falsy.
* Instants (`scheduled_at`, `now`) are naturals; the ISO-string comparison
  `scheduled_at <= now_iso` of the source is order-isomorphic to `≤` on
  those naturals.
* The QA average is kept in tenths (`70` means `7.0`).  The source computes
  `round(sum(scores)/6, 1)` on floats; for integer scores the quotient is
  never half way between two tenths (`20*s + 6 ≡ 0 [MOD 12]` is impossible),
  and the distance of `s/6` from any tie point is at least `1/60`, far above
  double rounding error, so exact round-half-up on tenths—`roundTenths`—is
  the precise value of the Python expression, and the float comparison
  `avg >= 7.0` agrees with `70 ≤ avgTenths`.
-/

namespace SprintAI

/-- A decoded JSON response body, restricted to the string fields the
scheduler actually reads (`post_id`, `id`, `name`, `access_token`), plus the
HTTP status code. -/
structure HttpResponse where
  status : Nat
  fields : List (String × String)
deriving DecidableEq, Repr

/-- An outgoing HTTP request: URL together with its form/json parameters. -/
structure HttpRequest where
  url : String
  params : List (String × String)
deriving DecidableEq, Repr

/-- Result of one network call: a transport-level error (e.g. timeout) or a
response. -/
abbrev NetResult := Except String HttpResponse

/-- The network environment an adapter runs against. -/
abbrev Net := HttpRequest → NetResult

/-- Python truthiness of an optional string: `None` and `""` are falsy. -/
def strTruthy : Option String → Bool
  | none => false
  | some s => s ≠ ""

/-- A row of `sprintai_content_calendar` (spec §3 "Post"). -/
structure Post where
  id : String
  client_id : String
  platform : String
  post_text : String
  image_url : Option String
  scheduled_at : Nat
  status : String
  status_prev : Option String
  qa_score : Option Nat
  qa_rewritten : Option Bool
  external_post_id : Option String
  error_message : Option String
deriving DecidableEq, Repr

/-- A row of `sprintai_social_connections` (spec §3 "Credential"). -/
structure ConnRow where
  client_id : String
  platform : String
  page_id : String
  access_token : String
deriving DecidableEq, Repr

/-- A row of `sprintai_posts`, the companion publication log. -/
structure PostRow where
  calendar_id : String
  client_id : String
  platform : String
  external_post_id : Option String
  posted_at : Option Nat
  error_message : Option String
deriving DecidableEq, Repr

/-- A row of `sprintai_qa_log`, the QA audit log. -/
structure QALogRow where
  client_id : String
  calendar_id : String
  platform : String
  score_hook : Nat
  score_local : Nat
  score_value : Nat
  score_cta : Nat
  score_platform : Nat
  score_authenticity : Nat
  score_average : Nat
  verdict : String
  issues : List String
  was_rewritten : Bool
deriving DecidableEq, Repr

/-- The Supabase tables touched by the two modules. -/
structure Store where
  calendar : List Post
  posts_log : List PostRow
  qa_log : List QALogRow
  connections : List ConnRow
deriving DecidableEq, Repr

/-- The `GOOGLE_CLIENT_ID` / `GOOGLE_CLIENT_SECRET` environment values. -/
structure GoogleCfg where
  google_client_id : String
  google_client_secret : String
deriving DecidableEq, Repr

namespace PostScheduler

/-- `get_pending_posts`: all calendar rows with `status = 'pending'` and
`scheduled_at <= now`. -/
def get_pending_posts (sb : Store) (now : Nat) : List Post :=
  sb.calendar.filter (fun p => p.status == "pending" && decide (p.scheduled_at ≤ now))

/-- `get_connection`: first social-connection row for a client+platform
(`.limit(1)` on the filtered table). -/
def get_connection (sb : Store) (client_id platform : String) : Option ConnRow :=
  sb.connections.find? (fun c => c.client_id == client_id && c.platform == platform)

/-- Update the status of every calendar row whose `id` matches
(`update({"status": st}).eq("id", calendar_id)`). -/
def setStatus (cal : List Post) (calendar_id status : String) : List Post :=
  cal.map (fun p => if p.id = calendar_id then { p with status := status } else p)

/-- `mark_posted`: set the calendar row to `posted` and append a
`sprintai_posts` row carrying the external post id and the timestamp. -/
def mark_posted (sb : Store) (calendar_id client_id platform external_post_id : String)
    (now : Nat) : Store :=
  { sb with
    calendar := setStatus sb.calendar calendar_id "posted",
    posts_log := sb.posts_log ++
      [{ calendar_id := calendar_id, client_id := client_id, platform := platform,
         external_post_id := some external_post_id, posted_at := some now,
         error_message := none }] }

/-- `mark_failed`: set the calendar row to `failed` and append a
`sprintai_posts` row carrying the error text truncated to 2000 characters
(`error[:2000]`). -/
def mark_failed (sb : Store) (calendar_id client_id platform error : String) : Store :=
  { sb with
    calendar := setStatus sb.calendar calendar_id "failed",
    posts_log := sb.posts_log ++
      [{ calendar_id := calendar_id, client_id := client_id, platform := platform,
         external_post_id := none, posted_at := none,
         error_message := some (error.take 2000) }] }

/-- `post_facebook`: one photo call (when the post carries an image) or one
feed call; on 2xx return `data.get("post_id") or data.get("id", "unknown")`.
Returns the result together with the trace of issued requests. -/
def post_facebook (net : Net) (post : Post) (connection : ConnRow) :
    Except String String × List HttpRequest :=
  let page_id := connection.page_id
  let page_token := connection.access_token
  let req : HttpRequest :=
    if strTruthy post.image_url then
      { url := "https://graph.facebook.com/v19.0/" ++ page_id ++ "/photos",
        params := [("url", post.image_url.getD ""), ("caption", post.post_text),
                   ("access_token", page_token)] }
    else
      { url := "https://graph.facebook.com/v19.0/" ++ page_id ++ "/feed",
        params := [("message", post.post_text), ("access_token", page_token)] }
  match net req with
  | .error e => (.error e, [req])
  | .ok r =>
    if 400 ≤ r.status then
      (.error ("HTTPError: status " ++ toString r.status), [req])
    else
      match r.fields.lookup "post_id" with
      | some pid =>
        (if pid = "" then .ok ((r.fields.lookup "id").getD "unknown") else .ok pid, [req])
      | none => (.ok ((r.fields.lookup "id").getD "unknown"), [req])

/-- `post_instagram`: mandatory two-step protocol.  With a falsy `image_url`
the adapter raises before any network traffic; otherwise step 1 creates the
media container and step 2 publishes it, returning the publish id with the
creation id as fallback. -/
def post_instagram (net : Net) (post : Post) (connection : ConnRow) :
    Except String String × List HttpRequest :=
  let ig_user_id := connection.page_id
  let page_token := connection.access_token
  match post.image_url with
  | none => (.error "Instagram posts require an image_url.", [])
  | some image_url =>
    if image_url = "" then (.error "Instagram posts require an image_url.", [])
    else
      let req1 : HttpRequest :=
        { url := "https://graph.facebook.com/v19.0/" ++ ig_user_id ++ "/media",
          params := [("image_url", image_url), ("caption", post.post_text),
                     ("access_token", page_token)] }
      match net req1 with
      | .error e => (.error e, [req1])
      | .ok r1 =>
        if 400 ≤ r1.status then
          (.error ("HTTPError: status " ++ toString r1.status), [req1])
        else
          match r1.fields.lookup "id" with
          | none => (.error "KeyError: id", [req1])
          | some creation_id =>
            let req2 : HttpRequest :=
              { url := "https://graph.facebook.com/v19.0/" ++ ig_user_id ++ "/media_publish",
                params := [("creation_id", creation_id), ("access_token", page_token)] }
            match net req2 with
            | .error e => (.error e, [req1, req2])
            | .ok r2 =>
              if 400 ≤ r2.status then
                (.error ("HTTPError: status " ++ toString r2.status), [req1, req2])
              else
                (.ok ((r2.fields.lookup "id").getD creation_id), [req1, req2])

/-- The token-endpoint request issued by `refresh_google_token`. -/
def googleTokenRequest (cfg : GoogleCfg) (refresh_token : String) : HttpRequest :=
  { url := "https://oauth2.googleapis.com/token",
    params := [("grant_type", "refresh_token"), ("refresh_token", refresh_token),
               ("client_id", cfg.google_client_id),
               ("client_secret", cfg.google_client_secret)] }

/-- `refresh_google_token`: exchange the stored refresh token for a
short-lived access token (`r.json()["access_token"]`). -/
def refresh_google_token (net : Net) (cfg : GoogleCfg) (refresh_token : String) :
    Except String String × List HttpRequest :=
  let req := googleTokenRequest cfg refresh_token
  match net req with
  | .error e => (.error e, [req])
  | .ok r =>
    if 400 ≤ r.status then (.error ("HTTPError: status " ++ toString r.status), [req])
    else
      match r.fields.lookup "access_token" with
      | none => (.error "KeyError: access_token", [req])
      | some tok => (.ok tok, [req])

/-- The local-post request issued by `post_google_business` (JSON body plus
bearer header, flattened into the parameter list). -/
def googleLocalPostRequest (post : Post) (location_name access_token : String) : HttpRequest :=
  { url := "https://mybusiness.googleapis.com/v4/" ++ location_name ++ "/localPosts",
    params :=
      [("languageCode", "en-US"), ("summary", post.post_text), ("topicType", "STANDARD")]
      ++ (if strTruthy post.image_url then
            [("media.mediaFormat", "PHOTO"), ("media.sourceUrl", post.image_url.getD "")]
          else [])
      ++ [("authorization", "Bearer " ++ access_token)] }

/-- `post_google_business`: refresh the token, then issue the local-post
call; on 2xx return `r.json().get("name", "unknown")`. -/
def post_google_business (net : Net) (cfg : GoogleCfg) (post : Post) (connection : ConnRow) :
    Except String String × List HttpRequest :=
  match refresh_google_token net cfg connection.access_token with
  | (.error e, reqs) => (.error e, reqs)
  | (.ok access_token, reqs) =>
    let req := googleLocalPostRequest post connection.page_id access_token
    match net req with
    | .error e => (.error e, reqs ++ [req])
    | .ok r =>
      if 400 ≤ r.status then
        (.error ("HTTPError: status " ++ toString r.status), reqs ++ [req])
      else
        (.ok ((r.fields.lookup "name").getD "unknown"), reqs ++ [req])

/-- `PLATFORM_HANDLERS`: the platform-name-to-adapter mapping. -/
def PLATFORM_HANDLERS (net : Net) (cfg : GoogleCfg) (platform : String) :
    Option (Post → ConnRow → Except String String × List HttpRequest) :=
  if platform = "facebook" then some (post_facebook net)
  else if platform = "instagram" then some (post_instagram net)
  else if platform = "google_business" then some (post_google_business net cfg)
  else none

/-- Whether a platform name has a registered handler. -/
def hasHandler (platform : String) : Bool :=
  platform == "facebook" || platform == "instagram" || platform == "google_business"

/-- Observable effect of one dispatcher step: a network request, a calendar
status update, or an inserted `sprintai_posts` row.  The order of events in
a trace is the order the source performs them. -/
inductive Event where
  | netRequest (req : HttpRequest)
  | statusUpdate (calendar_id status : String)
  | insertRow (row : PostRow)
deriving DecidableEq, Repr

/-- Whether an event is a status update for the given calendar id. -/
def Event.statusUpdateOf (x : String) : Event → Bool
  | .statusUpdate i _ => i == x
  | _ => false

/-- Whether an event is a status update at all. -/
def Event.isStatusUpdate : Event → Bool
  | .statusUpdate _ _ => true
  | _ => false

/-- Number of status-update events for a given calendar id in a trace. -/
def countSU (tr : List Event) (x : String) : Nat :=
  (tr.filter (Event.statusUpdateOf x)).length

/-- Store events of `mark_posted`, in source order. -/
def markPostedEvents (calendar_id client_id platform external_post_id : String)
    (now : Nat) : List Event :=
  [.statusUpdate calendar_id "posted",
   .insertRow { calendar_id := calendar_id, client_id := client_id, platform := platform,
                external_post_id := some external_post_id, posted_at := some now,
                error_message := none }]

/-- Store events of `mark_failed`, in source order. -/
def markFailedEvents (calendar_id client_id platform error : String) : List Event :=
  [.statusUpdate calendar_id "failed",
   .insertRow { calendar_id := calendar_id, client_id := client_id, platform := platform,
                external_post_id := none, posted_at := none,
                error_message := some (error.take 2000) }]

/-- Per-post classification used by the summary counters. -/
inductive Outcome where
  | posted
  | failed
  | skipped
deriving DecidableEq, Repr

/-- Body of the `for post in pending` loop of `run`: resolve the handler,
resolve the connection, invoke the adapter inside try/except, and record the
outcome.  Returns the updated store, the outcome class, and the trace of
effects in source order. -/
def dispatchPost (net : Net) (cfg : GoogleCfg) (now : Nat) (sb : Store) (post : Post) :
    Store × Outcome × List Event :=
  match PLATFORM_HANDLERS net cfg post.platform with
  | none => (sb, .skipped, [])
  | some handler =>
    match get_connection sb post.client_id post.platform with
    | none =>
      let err := "No " ++ post.platform ++ " connection found for client " ++ post.client_id
      (mark_failed sb post.id post.client_id post.platform err, .failed,
       markFailedEvents post.id post.client_id post.platform err)
    | some connection =>
      match handler post connection with
      | (.ok post_id, reqs) =>
        (mark_posted sb post.id post.client_id post.platform post_id now, .posted,
         reqs.map Event.netRequest ++
           markPostedEvents post.id post.client_id post.platform post_id now)
      | (.error e, reqs) =>
        (mark_failed sb post.id post.client_id post.platform e, .failed,
         reqs.map Event.netRequest ++
           markFailedEvents post.id post.client_id post.platform e)

/-- The outcome of one post as a function of that post, the connection
table, and the network alone — independent of the rest of the batch. -/
def postOutcome (net : Net) (cfg : GoogleCfg) (conns : List ConnRow) (post : Post) : Outcome :=
  match PLATFORM_HANDLERS net cfg post.platform with
  | none => .skipped
  | some handler =>
    match conns.find? (fun c => c.client_id == post.client_id && c.platform == post.platform) with
    | none => .failed
    | some connection =>
      match handler post connection with
      | (.ok _, _) => .posted
      | (.error _, _) => .failed

/-- Accumulator of a dispatcher run: store plus the `success`/`failed`/
`skipped` counters of `run` plus the effect trace. -/
structure RunState where
  store : Store
  success : Nat
  failed : Nat
  skipped : Nat
  trace : List Event
deriving DecidableEq, Repr

/-- One iteration of the batch loop, folded into the accumulator. -/
def stepPost (net : Net) (cfg : GoogleCfg) (now : Nat) (st : RunState) (p : Post) : RunState :=
  match dispatchPost net cfg now st.store p with
  | (sb, out, ev) =>
    { store := sb,
      success := st.success + (if out = .posted then 1 else 0),
      failed := st.failed + (if out = .failed then 1 else 0),
      skipped := st.skipped + (if out = .skipped then 1 else 0),
      trace := st.trace ++ ev }

/-- The batch loop of `run` over an already-selected list of posts. -/
def runLoop (net : Net) (cfg : GoogleCfg) (now : Nat) :
    List Post → RunState → RunState
  | [], st => st
  | p :: rest, st => runLoop net cfg now rest (stepPost net cfg now st p)

/-- `run`: select the pending posts whose scheduled time has elapsed and
process them in order, starting from zero counters and an empty trace. -/
def run (net : Net) (cfg : GoogleCfg) (now : Nat) (sb : Store) : RunState :=
  runLoop net cfg now (get_pending_posts sb now) ⟨sb, 0, 0, 0, []⟩

end PostScheduler

namespace ContentQA

/-- `APPROVAL_THRESHOLD = 7.0`, in tenths. -/
def APPROVAL_THRESHOLD_TENTHS : Nat := 70

/-- The six rubric dimension scores of one oracle response. -/
structure Scores where
  hook_strength : Nat
  local_specificity : Nat
  value_delivery : Nat
  cta_clarity : Nat
  platform_fit : Nat
  authenticity : Nat
deriving DecidableEq, Repr

/-- `sum(scores.values())` for the six dimensions. -/
def Scores.sum (s : Scores) : Nat :=
  s.hook_strength + s.local_specificity + s.value_delivery +
    s.cta_clarity + s.platform_fit + s.authenticity

/-- Round `total / count` to the nearest tenth, expressed in tenths
(round half up; ties never occur for `count = 6` and integer scores, see the
header comment, so this is exactly the Python `round(total/count, 1)`). -/
def roundTenths (total count : Nat) : Nat :=
  (20 * total + count) / (2 * count)

/-- A parsed, key-validated scoring-oracle response (`average` in tenths). -/
structure QAResponse where
  scores : Scores
  average : Nat
  verdict : String
  issues : List String
  improved_version : String
deriving DecidableEq, Repr

/-- Lines 251–257 of `call_claude_qa`: recompute the average from the six
scores and overwrite the verdict from the threshold rule, discarding
whatever average and verdict the oracle supplied. -/
def recalcQA (result : QAResponse) : QAResponse :=
  let avg := roundTenths result.scores.sum 6
  { result with
    average := avg,
    verdict := if APPROVAL_THRESHOLD_TENTHS ≤ avg then "APPROVED" else "REWRITE" }

/-- The retry loop of `call_claude_qa`.  `att i` is the outcome of attempt
`i` (network call, JSON parse and key validation collapsed into one
`Except`); `remaining` counts the retries still allowed.  A successful
attempt is post-processed by `recalcQA`; once the retry budget is spent the
last error is re-raised as the final failure. -/
def attemptLoop (att : Nat → Except String QAResponse) :
    Nat → Nat → Except String QAResponse
  | i, remaining =>
    match att i with
    | .ok result => .ok (recalcQA result)
    | .error e =>
      match remaining with
      | 0 => .error ("QA call failed after all attempts: " ++ e)
      | r + 1 => attemptLoop att (i + 1) r

/-- `call_claude_qa` with its `retries` parameter (source default 2, hence
three attempts in total). -/
def call_claude_qa (att : Nat → Except String QAResponse) (retries : Nat) :
    Except String QAResponse :=
  attemptLoop att 0 retries

/-- `apply_qa_result`: in dry-run mode return the store untouched; otherwise
update the calendar row (status, status_prev, qa_score, qa_rewritten, and —
only when rewriting — the post text) and append one `sprintai_qa_log` row. -/
def apply_qa_result (sb : Store) (post : Post) (qa : QAResponse) (dry_run : Bool) : Store :=
  let rewritten := qa.verdict == "REWRITE" && qa.improved_version.trim != ""
  let new_text := if rewritten then qa.improved_version.trim else post.post_text
  if dry_run then sb
  else
    { sb with
      calendar := sb.calendar.map (fun p =>
        if p.id = post.id then
          let p1 : Post :=
            { p with status := "pending", status_prev := some "draft",
                     qa_score := some qa.average, qa_rewritten := some rewritten }
          if rewritten then { p1 with post_text := new_text } else p1
        else p),
      qa_log := sb.qa_log ++
        [{ client_id := post.client_id, calendar_id := post.id, platform := post.platform,
           score_hook := qa.scores.hook_strength, score_local := qa.scores.local_specificity,
           score_value := qa.scores.value_delivery, score_cta := qa.scores.cta_clarity,
           score_platform := qa.scores.platform_fit,
           score_authenticity := qa.scores.authenticity,
           score_average := qa.average, verdict := qa.verdict, issues := qa.issues,
           was_rewritten := rewritten }] }

/-- Accumulator of the review loop in `main`: the store, the collected
`(post, qa)` results, and the approved/rewritten counters. -/
structure ReviewState where
  store : Store
  results : List (Post × QAResponse)
  approved_count : Nat
  rewritten_count : Nat
deriving DecidableEq, Repr

/-- The `for post in posts` loop of `main`: per post, run the QA call; on
failure skip the post and continue (no store change, no audit row); on
success bump the verdict counter, apply the result, and record it.
`oracle post i` is the outcome of attempt `i` of the scoring call for
`post`. -/
def reviewLoop (oracle : Post → Nat → Except String QAResponse) (dry_run : Bool) :
    List Post → ReviewState → ReviewState
  | [], st => st
  | post :: rest, st =>
    match call_claude_qa (oracle post) 2 with
    | .error _ => reviewLoop oracle dry_run rest st
    | .ok qa =>
      let approved := qa.verdict == "APPROVED"
      reviewLoop oracle dry_run rest
        { store := apply_qa_result st.store post qa dry_run,
          results := st.results ++ [(post, qa)],
          approved_count := st.approved_count + (if approved then 1 else 0),
          rewritten_count := st.rewritten_count + (if approved then 0 else 1) }

/-- The review pass of `main` over a selected batch of draft posts. -/
def reviewBatch (oracle : Post → Nat → Except String QAResponse) (dry_run : Bool)
    (posts : List Post) (sb : Store) : ReviewState :=
  reviewLoop oracle dry_run posts ⟨sb, [], 0, 0⟩

/-- The `(post, qa)` pairs a review pass collects: one per post whose QA
call succeeded, in batch order. -/
def qaOutcomes (oracle : Post → Nat → Except String QAResponse) :
    List Post → List (Post × QAResponse)
  | [] => []
  | post :: rest =>
    match call_claude_qa (oracle post) 2 with
    | .error _ => qaOutcomes oracle rest
    | .ok qa => (post, qa) :: qaOutcomes oracle rest

end ContentQA

namespace PostScheduler

/-- Forget the status of a calendar row (all other columns kept), used to
state that a dispatcher run touches nothing but the status column. -/
def eraseStatus (p : Post) : Post := { p with status := "" }

/-- The disjunctive shape of every companion `sprintai_posts` row a
dispatcher run appends: either an external id with a timestamp and no
error, or a 2000-character-truncated error with neither id nor timestamp. -/
def goodRow (now : Nat) (r : PostRow) : Prop :=
  ((∃ e, r.external_post_id = some e) ∧ r.error_message = none ∧ r.posted_at = some now) ∨
  (r.external_post_id = none ∧ (∃ e : String, r.error_message = some (e.take 2000)) ∧
    r.posted_at = none)

/-- All calendar rows with the given id have reached a terminal status. -/
def terminalAt (sb : Store) (x : String) : Prop :=
  ∀ q ∈ sb.calendar, q.id = x → (q.status = "posted" ∨ q.status = "failed")

end PostScheduler

/-! Concrete fixtures used by witnesses, counterexamples and the worked
scenario of spec §8. -/

/-- A calendar row fresh out of generation: no QA metadata, no outcome. -/
def mkPost (id client platform text : String) (img : Option String) (sched : Nat)
    (status : String) : Post :=
  { id := id, client_id := client, platform := platform, post_text := text,
    image_url := img, scheduled_at := sched, status := status, status_prev := none,
    qa_score := none, qa_rewritten := none, external_post_id := none,
    error_message := none }

/-- A social-connection row. -/
def mkConn (client platform page tok : String) : ConnRow :=
  { client_id := client, platform := platform, page_id := page, access_token := tok }

/-- A Google configuration value. -/
def exCfg : GoogleCfg := { google_client_id := "GID", google_client_secret := "GSECRET" }

/-- A network that answers every request with a 2xx body carrying one id. -/
def okNet : Net := fun _ => .ok { status := 200, fields := [("id", "EXT9")] }

/-- The single-post store used to examine one dispatcher step in detail. -/
def onePostStore : Store :=
  { calendar := [mkPost "p9" "c1" "facebook" "hello" none 50 "pending"],
    posts_log := [], qa_log := [],
    connections := [mkConn "c1" "facebook" "PAGE" "TOK"] }

/-- The five posts of the worked scenario of spec §8: three pending Facebook
posts, two pending Instagram posts, the second Instagram post missing its
image, all scheduled in the past. -/
def scnStore : Store :=
  { calendar :=
      [mkPost "p1" "c1" "facebook" "fb one" none 50 "pending",
       mkPost "p2" "c1" "facebook" "fb two" none 50 "pending",
       mkPost "p3" "c1" "facebook" "fb three" none 50 "pending",
       mkPost "p4" "c1" "instagram" "ig one" (some "https://img.example/1.jpg") 50 "pending",
       mkPost "p5" "c1" "instagram" "ig two" none 50 "pending"],
    posts_log := [], qa_log := [],
    connections := [mkConn "c1" "facebook" "PAGE" "TOK", mkConn "c1" "instagram" "IGU" "TOK"] }

/-- The scenario network: the feed call of the second Facebook post times
out; every other call succeeds with a 2xx body carrying an id. -/
def scnNet : Net := fun req =>
  if req.params.lookup "message" = some "fb two" then
    .error "ReadTimeout: request timed out"
  else
    .ok { status := 200, fields := [("id", "EXT1")] }

/-- A scoring oracle whose every attempt fails, for the retry claims. -/
def failingOracle : Post → Nat → Except String ContentQA.QAResponse :=
  fun _ _ => .error "invalid JSON"

/-- A scoring oracle that always answers with the given response. -/
def constOracle (resp : ContentQA.QAResponse) : Post → Nat → Except String ContentQA.QAResponse :=
  fun _ _ => .ok resp

/-- A sample low-scoring oracle response carrying a stale average, a stale
verdict, and an improvement. -/
def lowResp : ContentQA.QAResponse :=
  { scores := { hook_strength := 4, local_specificity := 5, value_delivery := 6,
                cta_clarity := 5, platform_fit := 6, authenticity := 5 },
    average := 99, verdict := "APPROVED", issues := ["generic opener"],
    improved_version := "  better text  " }

/-- A store holding two draft posts, for the QA witnesses. -/
def draftStore : Store :=
  { calendar := [mkPost "d1" "c1" "facebook" "draft one" none 10 "draft",
                 mkPost "d2" "c1" "instagram" "draft two" (some "https://img.example/2.jpg") 20 "draft"],
    posts_log := [], qa_log := [], connections := [] }

namespace ContentQA

/-! ### Supporting lemmas for the quality gate -/

theorem attemptLoop_ok_shape (att : Nat → Except String QAResponse) :
    ∀ (remaining i : Nat) (res : QAResponse),
      attemptLoop att i remaining = .ok res → ∃ r, res = recalcQA r := by
  intro remaining
  induction remaining with
  | zero =>
    intro i res h
    unfold attemptLoop at h
    cases hatt : att i with
    | ok r => rw [hatt] at h; exact ⟨r, by injection h with h; exact h.symm⟩
    | error e => rw [hatt] at h; cases h
  | succ r ih =>
    intro i res h
    unfold attemptLoop at h
    cases hatt : att i with
    | ok q => rw [hatt] at h; exact ⟨q, by injection h with h; exact h.symm⟩
    | error e => rw [hatt] at h; exact ih (i + 1) res h

theorem recalcQA_scores (r : QAResponse) : (recalcQA r).scores = r.scores := rfl

theorem recalcQA_average (r : QAResponse) :
    (recalcQA r).average = roundTenths r.scores.sum 6 := rfl

theorem recalcQA_verdict (r : QAResponse) :
    (recalcQA r).verdict =
      if APPROVAL_THRESHOLD_TENTHS ≤ roundTenths r.scores.sum 6 then "APPROVED"
      else "REWRITE" := rfl

/-- Claim C1: for every QA oracle response containing six dimension scores,
the quality gate computes the average as the mean of the six scores rounded
to one decimal (kept in tenths: `roundTenths`) and sets the verdict to
APPROVED exactly when that average is at least 7.0 (70 tenths), regardless
of any average or verdict the oracle itself supplied. -/
theorem qa_average_and_verdict_recomputed
    (att : Nat → Except String QAResponse) (retries : Nat) (res : QAResponse)
    (h : call_claude_qa att retries = .ok res) :
    (res.average = roundTenths res.scores.sum 6 ∧
      (res.verdict = "APPROVED" ↔ 70 ≤ res.average) ∧
      (res.verdict = "APPROVED" ∨ res.verdict = "REWRITE")) ∧
    (∀ (r : QAResponse) (a : Nat) (v : String),
      recalcQA { r with average := a, verdict := v } = recalcQA r) := by
  refine ⟨?_, fun r a v => rfl⟩
  obtain ⟨r, hr⟩ := attemptLoop_ok_shape att retries 0 res h
  subst hr
  refine ⟨rfl, ?_, ?_⟩
  · rw [recalcQA_verdict, recalcQA_average]
    unfold APPROVAL_THRESHOLD_TENTHS
    split
    · next hle => simp [hle]
    · next hlt => simp [hlt]
  · rw [recalcQA_verdict]
    split
    · exact Or.inl rfl
    · exact Or.inr rfl

/-- Witness for C1 at a concrete oracle response: six scores summing to 31,
average 5.2, verdict REWRITE. -/
theorem qa_average_and_verdict_recomputed_witness :
    ((recalcQA lowResp).average = roundTenths (recalcQA lowResp).scores.sum 6 ∧
      ((recalcQA lowResp).verdict = "APPROVED" ↔ 70 ≤ (recalcQA lowResp).average) ∧
      ((recalcQA lowResp).verdict = "APPROVED" ∨ (recalcQA lowResp).verdict = "REWRITE")) ∧
    (∀ (r : QAResponse) (a : Nat) (v : String),
      recalcQA { r with average := a, verdict := v } = recalcQA r) :=
  qa_average_and_verdict_recomputed (fun _ => .ok lowResp) 2 (recalcQA lowResp) rfl

/-- Claim C7: for every reviewed post, the quality gate replaces the post
text with the improvement exactly when the verdict is REWRITE and a
non-blank improvement was supplied (the source tests the text after
whitespace stripping, and stores the stripped text), setting
`qa_rewritten` accordingly; in both cases the row becomes pending with
`qa_score` equal to the computed average. -/
theorem rewrite_applied_iff_nonblank_improvement
    (sb : Store) (post : Post) (qa : QAResponse) (q : Post)
    (hmem : q ∈ sb.calendar) (hid : q.id = post.id) :
    ({ q with
        status := "pending", status_prev := some "draft",
        qa_score := some qa.average,
        qa_rewritten := some (qa.verdict == "REWRITE" && qa.improved_version.trim != ""),
        post_text :=
          if qa.verdict == "REWRITE" && qa.improved_version.trim != "" then
            qa.improved_version.trim
          else q.post_text } : Post)
      ∈ (apply_qa_result sb post qa false).calendar := by
  unfold apply_qa_result
  simp only [Bool.ite_eq_true_distrib, if_false]
  refine List.mem_map.mpr ⟨q, hmem, ?_⟩
  rw [if_pos hid]
  by_cases hrw : (qa.verdict == "REWRITE" && qa.improved_version.trim != "") = true
  · simp [hrw]
  · simp [hrw]

/-- Witness for C7: a draft post, a REWRITE verdict with a non-blank
improvement; the updated row (stripped improvement, `qa_rewritten = true`,
pending, score 5.2) is in the resulting calendar. -/
theorem rewrite_applied_iff_nonblank_improvement_witness :
    ({ (mkPost "d1" "c1" "facebook" "draft one" none 10 "draft") with
        status := "pending", status_prev := some "draft",
        qa_score := some (recalcQA lowResp).average,
        qa_rewritten := some ((recalcQA lowResp).verdict == "REWRITE" &&
          (recalcQA lowResp).improved_version.trim != ""),
        post_text :=
          if (recalcQA lowResp).verdict == "REWRITE" &&
              (recalcQA lowResp).improved_version.trim != "" then
            (recalcQA lowResp).improved_version.trim
          else (mkPost "d1" "c1" "facebook" "draft one" none 10 "draft").post_text } : Post)
      ∈ (apply_qa_result draftStore (mkPost "d1" "c1" "facebook" "draft one" none 10 "draft")
          (recalcQA lowResp) false).calendar :=
  rewrite_applied_iff_nonblank_improvement draftStore
    (mkPost "d1" "c1" "facebook" "draft one" none 10 "draft") (recalcQA lowResp)
    (mkPost "d1" "c1" "facebook" "draft one" none 10 "draft") (by decide) rfl

/-! ### Supporting lemmas for the review loop -/

theorem reviewLoop_store_dry (oracle : Post → Nat → Except String QAResponse) :
    ∀ (posts : List Post) (st : ReviewState),
      (reviewLoop oracle true posts st).store = st.store := by
  intro posts
  induction posts with
  | nil => intro st; rfl
  | cons post rest ih =>
    intro st
    unfold reviewLoop
    cases call_claude_qa (oracle post) 2 with
    | error e => exact ih st
    | ok qa => rw [ih]; rfl

theorem reviewLoop_results (oracle : Post → Nat → Except String QAResponse)
    (dry_run : Bool) :
    ∀ (posts : List Post) (st : ReviewState),
      (reviewLoop oracle dry_run posts st).results = st.results ++ qaOutcomes oracle posts := by
  intro posts
  induction posts with
  | nil => intro st; simp [reviewLoop, qaOutcomes]
  | cons post rest ih =>
    intro st
    unfold reviewLoop qaOutcomes
    cases call_claude_qa (oracle post) 2 with
    | error e => exact ih st
    | ok qa => rw [ih]; simp

theorem reviewLoop_approved (oracle : Post → Nat → Except String QAResponse)
    (dry_run : Bool) :
    ∀ (posts : List Post) (st : ReviewState),
      (reviewLoop oracle dry_run posts st).approved_count =
        st.approved_count +
          ((qaOutcomes oracle posts).filter (fun x => x.2.verdict == "APPROVED")).length := by
  intro posts
  induction posts with
  | nil => intro st; simp [reviewLoop, qaOutcomes]
  | cons post rest ih =>
    intro st
    unfold reviewLoop qaOutcomes
    cases call_claude_qa (oracle post) 2 with
    | error e => exact ih st
    | ok qa =>
      rw [ih]
      by_cases hv : (qa.verdict == "APPROVED") = true
      · simp [hv]; omega
      · simp [hv]

theorem reviewLoop_rewritten (oracle : Post → Nat → Except String QAResponse)
    (dry_run : Bool) :
    ∀ (posts : List Post) (st : ReviewState),
      (reviewLoop oracle dry_run posts st).rewritten_count =
        st.rewritten_count +
          ((qaOutcomes oracle posts).filter (fun x => !(x.2.verdict == "APPROVED"))).length := by
  intro posts
  induction posts with
  | nil => intro st; simp [reviewLoop, qaOutcomes]
  | cons post rest ih =>
    intro st
    unfold reviewLoop qaOutcomes
    cases call_claude_qa (oracle post) 2 with
    | error e => exact ih st
    | ok qa =>
      rw [ih]
      by_cases hv : (qa.verdict == "APPROVED") = true
      · simp [hv]
      · simp [hv]; omega

/-- Claim C9: in dry-run mode the quality gate performs the scoring and
produces the same per-post results and counters as a committing run, but
the store — content calendar, QA log, and everything else — is unchanged. -/
theorem dry_run_frame (oracle : Post → Nat → Except String QAResponse)
    (posts : List Post) (sb : Store) :
    (reviewBatch oracle true posts sb).store = sb ∧
    (reviewBatch oracle true posts sb).results =
      (reviewBatch oracle false posts sb).results ∧
    (reviewBatch oracle true posts sb).approved_count =
      (reviewBatch oracle false posts sb).approved_count ∧
    (reviewBatch oracle true posts sb).rewritten_count =
      (reviewBatch oracle false posts sb).rewritten_count := by
  unfold reviewBatch
  refine ⟨reviewLoop_store_dry oracle posts _, ?_, ?_, ?_⟩
  · rw [reviewLoop_results, reviewLoop_results]
  · rw [reviewLoop_approved, reviewLoop_approved]
  · rw [reviewLoop_rewritten, reviewLoop_rewritten]

theorem reviewLoop_append (oracle : Post → Nat → Except String QAResponse)
    (dry_run : Bool) :
    ∀ (l1 l2 : List Post) (st : ReviewState),
      reviewLoop oracle dry_run (l1 ++ l2) st =
        reviewLoop oracle dry_run l2 (reviewLoop oracle dry_run l1 st) := by
  intro l1
  induction l1 with
  | nil => intro l2 st; rfl
  | cons post rest ih =>
    intro l2 st
    rcases hq : call_claude_qa (oracle post) 2 with e | qa
    · simp only [List.cons_append, reviewLoop, hq]
      exact ih l2 st
    · simp only [List.cons_append, reviewLoop, hq]
      exact ih l2 _

theorem call_claude_qa_all_fail (att : Nat → Except String QAResponse)
    (e0 e1 e2 : String) (h0 : att 0 = .error e0) (h1 : att 1 = .error e1)
    (h2 : att 2 = .error e2) :
    call_claude_qa att 2 = .error ("QA call failed after all attempts: " ++ e2) := by
  unfold call_claude_qa attemptLoop
  rw [h0]
  unfold attemptLoop
  rw [h1]
  unfold attemptLoop
  rw [h2]

/-- Claim C8: a post whose scoring call fails on all three attempts (two
retries after the first try) is skipped — the whole batch behaves exactly
as if that post were absent: same store (so the post stays draft and gets
no audit row), same results, same counters — and the remaining posts are
still reviewed. -/
theorem oracle_failure_skips_post_batch_continues
    (oracle : Post → Nat → Except String QAResponse) (dry_run : Bool)
    (posts1 posts2 : List Post) (p : Post) (sb : Store) (e0 e1 e2 : String)
    (h0 : oracle p 0 = .error e0) (h1 : oracle p 1 = .error e1)
    (h2 : oracle p 2 = .error e2) :
    reviewBatch oracle dry_run (posts1 ++ p :: posts2) sb =
      reviewBatch oracle dry_run (posts1 ++ posts2) sb := by
  unfold reviewBatch
  rw [reviewLoop_append, reviewLoop_append]
  have hfail := call_claude_qa_all_fail (oracle p) e0 e1 e2 h0 h1 h2
  conv_lhs => rw [reviewLoop]
  rw [hfail]

/-- Witness for C8: with an always-failing oracle for the first post of a
two-post batch, the review of `[bad, good]` equals the review of `[good]`. -/
theorem oracle_failure_skips_post_batch_continues_witness :
    reviewBatch failingOracle false
        ([] ++ mkPost "d1" "c1" "facebook" "draft one" none 10 "draft" ::
          [mkPost "d2" "c1" "instagram" "draft two" (some "https://img.example/2.jpg") 20 "draft"])
        draftStore =
      reviewBatch failingOracle false
        ([] ++ [mkPost "d2" "c1" "instagram" "draft two" (some "https://img.example/2.jpg") 20 "draft"])
        draftStore :=
  oracle_failure_skips_post_batch_continues failingOracle false []
    [mkPost "d2" "c1" "instagram" "draft two" (some "https://img.example/2.jpg") 20 "draft"]
    (mkPost "d1" "c1" "facebook" "draft one" none 10 "draft") draftStore
    "invalid JSON" "invalid JSON" "invalid JSON" rfl rfl rfl

end ContentQA

namespace PostScheduler

/-! ### Adapter claims -/

/-- Claim C6: for every post with no image, the Instagram adapter fails with
the missing-image error and issues no network request at all — neither the
media-container step nor the publish step. -/
theorem instagram_missing_image_no_network
    (net : Net) (post : Post) (connection : ConnRow) (h : post.image_url = none) :
    post_instagram net post connection =
      (.error "Instagram posts require an image_url.", []) := by
  unfold post_instagram
  rw [h]

/-- Witness for C6: the image-less Instagram post of the §8 scenario, run
against a network that would answer every request. -/
theorem instagram_missing_image_no_network_witness :
    post_instagram okNet (mkPost "p5" "c1" "instagram" "ig two" none 50 "pending")
        (mkConn "c1" "instagram" "IGU" "TOK") =
      (.error "Instagram posts require an image_url.", []) :=
  instagram_missing_image_no_network okNet
    (mkPost "p5" "c1" "instagram" "ig two" none 50 "pending")
    (mkConn "c1" "instagram" "IGU" "TOK") rfl

/-- Evaluation of `post_facebook` at the input violating claim C5: a 2xx
response whose body has neither a `post_id` nor an `id` field makes the
adapter return the fabricated literal id `unknown` instead of surfacing an
error. -/
theorem facebook_missing_id_returns_unknown :
    post_facebook (fun _ => .ok { status := 200, fields := [] })
        (mkPost "p9" "c1" "facebook" "hello" none 50 "pending")
        (mkConn "c1" "facebook" "PAGE" "TOK") =
      (.ok "unknown",
       [{ url := "https://graph.facebook.com/v19.0/PAGE/feed",
          params := [("message", "hello"), ("access_token", "TOK")] }]) := rfl

/-- Claim C10: for every 2xx Google Business local-post response whose body
lacks a `name` field, the adapter returns the literal string `unknown` as
the external post id rather than raising — the same silent success-shape
fallback as the Facebook adapter. -/
theorem google_missing_name_returns_unknown
    (net : Net) (cfg : GoogleCfg) (post : Post) (connection : ConnRow)
    (tok : String) (r : HttpResponse)
    (htok : net (googleTokenRequest cfg connection.access_token) =
      .ok { status := 200, fields := [("access_token", tok)] })
    (hpost : net (googleLocalPostRequest post connection.page_id tok) = .ok r)
    (h2xx : 200 ≤ r.status ∧ r.status < 300)
    (hname : r.fields.lookup "name" = none) :
    post_google_business net cfg post connection =
      (.ok "unknown",
       [googleTokenRequest cfg connection.access_token,
        googleLocalPostRequest post connection.page_id tok]) := by
  have h1 : refresh_google_token net cfg connection.access_token =
      (.ok tok, [googleTokenRequest cfg connection.access_token]) := by
    simp [refresh_google_token, htok]
  unfold post_google_business
  rw [h1]
  dsimp only
  rw [hpost]
  dsimp only
  have hlt2 : ¬ (400 ≤ r.status) := by omega
  rw [if_neg hlt2, hname]
  rfl

/-- Witness for C10: a network that answers the token exchange with a
short-lived token and the local-post call with a 2xx empty body. -/
theorem google_missing_name_returns_unknown_witness :
    post_google_business
        (fun rq => if rq.url = "https://oauth2.googleapis.com/token" then
            .ok { status := 200, fields := [("access_token", "SHORT")] }
          else .ok { status := 201, fields := [] })
        exCfg (mkPost "g1" "c1" "google_business" "gbp text" none 50 "pending")
        (mkConn "c1" "google_business" "accounts/1/locations/2" "REFRESH") =
      (.ok "unknown",
       [googleTokenRequest exCfg "REFRESH",
        googleLocalPostRequest (mkPost "g1" "c1" "google_business" "gbp text" none 50 "pending")
          "accounts/1/locations/2" "SHORT"]) :=
  google_missing_name_returns_unknown
    (fun rq => if rq.url = "https://oauth2.googleapis.com/token" then
        .ok { status := 200, fields := [("access_token", "SHORT")] }
      else .ok { status := 201, fields := [] })
    exCfg (mkPost "g1" "c1" "google_business" "gbp text" none 50 "pending")
    (mkConn "c1" "google_business" "accounts/1/locations/2" "REFRESH")
    "SHORT" { status := 201, fields := [] } rfl rfl (by decide) rfl

/-! ### Supporting lemmas for one dispatcher step -/

theorem PLATFORM_HANDLERS_none_iff (net : Net) (cfg : GoogleCfg) (platform : String) :
    PLATFORM_HANDLERS net cfg platform = none ↔ hasHandler platform = false := by
  unfold PLATFORM_HANDLERS hasHandler
  by_cases h1 : platform = "facebook"
  · simp [h1]
  · by_cases h2 : platform = "instagram"
    · simp [h1, h2]
    · by_cases h3 : platform = "google_business"
      · simp [h1, h2, h3]
      · simp [h1, h2, h3]

theorem dispatchPost_connections (net : Net) (cfg : GoogleCfg) (now : Nat)
    (sb : Store) (p : Post) :
    (dispatchPost net cfg now sb p).1.connections = sb.connections := by
  unfold dispatchPost
  rcases hh : PLATFORM_HANDLERS net cfg p.platform with _ | handler
  · simp only [hh]
  · simp only [hh]
    rcases hc : get_connection sb p.client_id p.platform with _ | conn
    · simp only [hc, mark_failed]
    · simp only [hc]
      rcases hr : handler p conn with ⟨res, reqs⟩
      cases res with
      | ok pid => simp only [hr, mark_posted]
      | error e => simp only [hr, mark_failed]

theorem dispatchPost_outcome (net : Net) (cfg : GoogleCfg) (now : Nat)
    (sb : Store) (p : Post) :
    (dispatchPost net cfg now sb p).2.1 = postOutcome net cfg sb.connections p := by
  unfold dispatchPost postOutcome get_connection
  rcases hh : PLATFORM_HANDLERS net cfg p.platform with _ | handler
  · simp only [hh]
  · simp only [hh]
    rcases hc : sb.connections.find?
        (fun c => c.client_id == p.client_id && c.platform == p.platform) with _ | conn
    · simp only [hc]
    · simp only [hc]
      rcases hr : handler p conn with ⟨res, reqs⟩
      cases res with
      | ok pid => simp only [hr]
      | error e => simp only [hr]

theorem dispatchPost_calendar_cases (net : Net) (cfg : GoogleCfg) (now : Nat)
    (sb : Store) (p : Post) :
    (dispatchPost net cfg now sb p).1.calendar = sb.calendar ∨
    (dispatchPost net cfg now sb p).1.calendar = setStatus sb.calendar p.id "posted" ∨
    (dispatchPost net cfg now sb p).1.calendar = setStatus sb.calendar p.id "failed" := by
  unfold dispatchPost
  rcases hh : PLATFORM_HANDLERS net cfg p.platform with _ | handler
  · exact Or.inl (by simp only [hh])
  · rcases hc : get_connection sb p.client_id p.platform with _ | conn
    · exact Or.inr (Or.inr (by simp only [hh, hc, mark_failed]))
    · rcases hr : handler p conn with ⟨res, reqs⟩
      cases res with
      | ok pid => exact Or.inr (Or.inl (by simp only [hh, hc, hr, mark_posted]))
      | error e => exact Or.inr (Or.inr (by simp only [hh, hc, hr, mark_failed]))

theorem dispatchPost_calendar_handled (net : Net) (cfg : GoogleCfg) (now : Nat)
    (sb : Store) (p : Post) (h : hasHandler p.platform = true) :
    (dispatchPost net cfg now sb p).1.calendar = setStatus sb.calendar p.id "posted" ∨
    (dispatchPost net cfg now sb p).1.calendar = setStatus sb.calendar p.id "failed" := by
  unfold dispatchPost
  rcases hh : PLATFORM_HANDLERS net cfg p.platform with _ | handler
  · have hf := (PLATFORM_HANDLERS_none_iff net cfg p.platform).mp hh
    rw [h] at hf
    simp at hf
  · rcases hc : get_connection sb p.client_id p.platform with _ | conn
    · exact Or.inr (by simp only [hh, hc, mark_failed])
    · rcases hr : handler p conn with ⟨res, reqs⟩
      cases res with
      | ok pid => exact Or.inl (by simp only [hh, hc, hr, mark_posted])
      | error e => exact Or.inr (by simp only [hh, hc, hr, mark_failed])

theorem dispatchPost_posts_log (net : Net) (cfg : GoogleCfg) (now : Nat)
    (sb : Store) (p : Post) :
    ∃ new, (dispatchPost net cfg now sb p).1.posts_log = sb.posts_log ++ new ∧
      ∀ r ∈ new, goodRow now r := by
  unfold dispatchPost
  rcases hh : PLATFORM_HANDLERS net cfg p.platform with _ | handler
  · simp only [hh]
    exact ⟨[], by simp⟩
  · simp only [hh]
    rcases hc : get_connection sb p.client_id p.platform with _ | conn
    · simp only [hc, mark_failed]
      refine ⟨_, rfl, ?_⟩
      intro r hr
      rcases List.mem_singleton.mp hr with rfl
      exact Or.inr ⟨rfl, ⟨_, rfl⟩, rfl⟩
    · simp only [hc]
      rcases hr : handler p conn with ⟨res, reqs⟩
      cases res with
      | ok pid =>
        simp only [hr, mark_posted]
        refine ⟨_, rfl, ?_⟩
        intro r hrm
        rcases List.mem_singleton.mp hrm with rfl
        exact Or.inl ⟨⟨pid, rfl⟩, rfl, rfl⟩
      | error e =>
        simp only [hr, mark_failed]
        refine ⟨_, rfl, ?_⟩
        intro r hrm
        rcases List.mem_singleton.mp hrm with rfl
        exact Or.inr ⟨rfl, ⟨e, rfl⟩, rfl⟩

theorem countSU_append (a b : List Event) (x : String) :
    countSU (a ++ b) x = countSU a x + countSU b x := by
  simp [countSU, List.filter_append]

theorem countSU_net (reqs : List HttpRequest) (x : String) :
    countSU (reqs.map Event.netRequest) x = 0 := by
  induction reqs with
  | nil => rfl
  | cons r rs ih => simp [countSU, List.filter, Event.statusUpdateOf, ih]

theorem countSU_markPostedEvents (cid c pl ext : String) (now : Nat) (x : String) :
    countSU (markPostedEvents cid c pl ext now) x = if cid = x then 1 else 0 := by
  by_cases h : cid = x
  · simp [countSU, markPostedEvents, Event.statusUpdateOf, List.filter, h]
  · have hb : (cid == x) = false := beq_eq_false_iff_ne.mpr h
    simp [countSU, markPostedEvents, Event.statusUpdateOf, List.filter, hb, h]

theorem countSU_markFailedEvents (cid c pl err : String) (x : String) :
    countSU (markFailedEvents cid c pl err) x = if cid = x then 1 else 0 := by
  by_cases h : cid = x
  · simp [countSU, markFailedEvents, Event.statusUpdateOf, List.filter, h]
  · have hb : (cid == x) = false := beq_eq_false_iff_ne.mpr h
    simp [countSU, markFailedEvents, Event.statusUpdateOf, List.filter, hb, h]

theorem dispatchPost_countSU (net : Net) (cfg : GoogleCfg) (now : Nat)
    (sb : Store) (p : Post) (x : String) :
    countSU (dispatchPost net cfg now sb p).2.2 x =
      if p.id = x ∧ hasHandler p.platform = true then 1 else 0 := by
  unfold dispatchPost
  rcases hh : PLATFORM_HANDLERS net cfg p.platform with _ | handler
  · have hf := (PLATFORM_HANDLERS_none_iff net cfg p.platform).mp hh
    simp only [hh]
    simp [countSU, hf]
  · have ht : hasHandler p.platform = true := by
      cases hb : hasHandler p.platform with
      | true => rfl
      | false =>
        have hn := (PLATFORM_HANDLERS_none_iff net cfg p.platform).mpr hb
        rw [hh] at hn
        cases hn
    simp only [hh]
    rcases hc : get_connection sb p.client_id p.platform with _ | conn
    · simp only [hc]
      rw [countSU_markFailedEvents]
      simp [ht]
    · simp only [hc]
      rcases hr : handler p conn with ⟨res, reqs⟩
      cases res with
      | ok pid =>
        simp only [hr]
        rw [countSU_append, countSU_net, countSU_markPostedEvents]
        simp [ht]
      | error e =>
        simp only [hr]
        rw [countSU_append, countSU_net, countSU_markFailedEvents]
        simp [ht]

/-! ### Supporting lemmas for the batch loop -/

theorem stepPost_eq (net : Net) (cfg : GoogleCfg) (now : Nat) (st : RunState) (p : Post) :
    stepPost net cfg now st p =
      { store := (dispatchPost net cfg now st.store p).1,
        success := st.success +
          (if (dispatchPost net cfg now st.store p).2.1 = .posted then 1 else 0),
        failed := st.failed +
          (if (dispatchPost net cfg now st.store p).2.1 = .failed then 1 else 0),
        skipped := st.skipped +
          (if (dispatchPost net cfg now st.store p).2.1 = .skipped then 1 else 0),
        trace := st.trace ++ (dispatchPost net cfg now st.store p).2.2 } := by
  unfold stepPost
  rcases hd : dispatchPost net cfg now st.store p with ⟨sb, out, ev⟩
  simp only [hd]

theorem runLoop_connections (net : Net) (cfg : GoogleCfg) (now : Nat) :
    ∀ (ps : List Post) (st : RunState),
      (runLoop net cfg now ps st).store.connections = st.store.connections := by
  intro ps
  induction ps with
  | nil => intro st; rfl
  | cons p rest ih =>
    intro st
    simp only [runLoop]
    rw [ih, stepPost_eq]
    exact dispatchPost_connections net cfg now st.store p

theorem runLoop_success (net : Net) (cfg : GoogleCfg) (now : Nat) :
    ∀ (ps : List Post) (st : RunState),
      (runLoop net cfg now ps st).success =
        st.success + ps.countP
          (fun p => decide (postOutcome net cfg st.store.connections p = Outcome.posted)) := by
  intro ps
  induction ps with
  | nil => intro st; simp [runLoop]
  | cons p rest ih =>
    intro st
    simp only [runLoop]
    rw [ih, stepPost_eq]
    simp only [dispatchPost_connections, dispatchPost_outcome]
    rw [List.countP_cons]
    by_cases hp : postOutcome net cfg st.store.connections p = Outcome.posted
    · simp [hp]
      omega
    · simp [hp]

theorem runLoop_failed (net : Net) (cfg : GoogleCfg) (now : Nat) :
    ∀ (ps : List Post) (st : RunState),
      (runLoop net cfg now ps st).failed =
        st.failed + ps.countP
          (fun p => decide (postOutcome net cfg st.store.connections p = Outcome.failed)) := by
  intro ps
  induction ps with
  | nil => intro st; simp [runLoop]
  | cons p rest ih =>
    intro st
    simp only [runLoop]
    rw [ih, stepPost_eq]
    simp only [dispatchPost_connections, dispatchPost_outcome]
    rw [List.countP_cons]
    by_cases hp : postOutcome net cfg st.store.connections p = Outcome.failed
    · simp [hp]
      omega
    · simp [hp]

theorem runLoop_skipped (net : Net) (cfg : GoogleCfg) (now : Nat) :
    ∀ (ps : List Post) (st : RunState),
      (runLoop net cfg now ps st).skipped =
        st.skipped + ps.countP
          (fun p => decide (postOutcome net cfg st.store.connections p = Outcome.skipped)) := by
  intro ps
  induction ps with
  | nil => intro st; simp [runLoop]
  | cons p rest ih =>
    intro st
    simp only [runLoop]
    rw [ih, stepPost_eq]
    simp only [dispatchPost_connections, dispatchPost_outcome]
    rw [List.countP_cons]
    by_cases hp : postOutcome net cfg st.store.connections p = Outcome.skipped
    · simp [hp]
      omega
    · simp [hp]

theorem terminalAt_setStatus (cal : List Post) (cid st x : String)
    (hst : st = "posted" ∨ st = "failed")
    (h : ∀ q ∈ cal, q.id = x → (q.status = "posted" ∨ q.status = "failed")) :
    ∀ q ∈ setStatus cal cid st, q.id = x → (q.status = "posted" ∨ q.status = "failed") := by
  intro q hq hqx
  rcases List.mem_map.mp hq with ⟨q0, hq0, hfq⟩
  by_cases hid : q0.id = cid
  · rw [if_pos hid] at hfq
    subst hfq
    exact hst
  · rw [if_neg hid] at hfq
    subst hfq
    exact h q0 hq0 hqx

theorem dispatchPost_terminalAt (net : Net) (cfg : GoogleCfg) (now : Nat)
    (sb : Store) (p : Post) (x : String) (h : terminalAt sb x) :
    terminalAt (dispatchPost net cfg now sb p).1 x := by
  unfold terminalAt at *
  rcases dispatchPost_calendar_cases net cfg now sb p with hc | hc | hc <;> rw [hc]
  · exact h
  · exact terminalAt_setStatus sb.calendar p.id "posted" x (Or.inl rfl) h
  · exact terminalAt_setStatus sb.calendar p.id "failed" x (Or.inr rfl) h

theorem dispatchPost_establishes (net : Net) (cfg : GoogleCfg) (now : Nat)
    (sb : Store) (p : Post) (h : hasHandler p.platform = true) :
    terminalAt (dispatchPost net cfg now sb p).1 p.id := by
  unfold terminalAt
  rcases dispatchPost_calendar_handled net cfg now sb p h with hc | hc <;> rw [hc] <;>
  · intro q hq hqx
    rcases List.mem_map.mp hq with ⟨q0, hq0, hfq⟩
    by_cases hid : q0.id = p.id
    · rw [if_pos hid] at hfq
      subst hfq
      simp
    · rw [if_neg hid] at hfq
      subst hfq
      exact absurd hqx hid

theorem runLoop_terminalAt (net : Net) (cfg : GoogleCfg) (now : Nat) :
    ∀ (ps : List Post) (st : RunState) (x : String),
      terminalAt st.store x → terminalAt (runLoop net cfg now ps st).store x := by
  intro ps
  induction ps with
  | nil => intro st x h; exact h
  | cons p rest ih =>
    intro st x h
    simp only [runLoop]
    refine ih _ x ?_
    rw [stepPost_eq]
    exact dispatchPost_terminalAt net cfg now st.store p x h

theorem runLoop_establishes (net : Net) (cfg : GoogleCfg) (now : Nat) :
    ∀ (ps : List Post) (st : RunState) (p : Post),
      p ∈ ps → hasHandler p.platform = true →
      terminalAt (runLoop net cfg now ps st).store p.id := by
  intro ps
  induction ps with
  | nil => intro st p hp; cases hp
  | cons q rest ih =>
    intro st p hp hh
    rcases List.mem_cons.mp hp with rfl | hp2
    · simp only [runLoop]
      refine runLoop_terminalAt net cfg now rest _ p.id ?_
      rw [stepPost_eq]
      exact dispatchPost_establishes net cfg now st.store p hh
    · simp only [runLoop]
      exact ih _ p hp2 hh

theorem runLoop_countSU (net : Net) (cfg : GoogleCfg) (now : Nat) (x : String) :
    ∀ (ps : List Post) (st : RunState),
      countSU (runLoop net cfg now ps st).trace x =
        countSU st.trace x +
          ps.countP (fun p => decide (p.id = x) && hasHandler p.platform) := by
  intro ps
  induction ps with
  | nil => intro st; simp [runLoop]
  | cons p rest ih =>
    intro st
    simp only [runLoop]
    rw [ih, stepPost_eq]
    simp only
    rw [countSU_append, dispatchPost_countSU, List.countP_cons]
    by_cases h1 : p.id = x
    · by_cases h2 : hasHandler p.platform = true
      · simp [h1, h2]
        omega
      · simp [h1, h2]
    · simp [h1]

theorem runLoop_posts_log (net : Net) (cfg : GoogleCfg) (now : Nat) :
    ∀ (ps : List Post) (st : RunState),
      ∃ new, (runLoop net cfg now ps st).store.posts_log = st.store.posts_log ++ new ∧
        ∀ r ∈ new, goodRow now r := by
  intro ps
  induction ps with
  | nil => intro st; exact ⟨[], by simp [runLoop], by simp⟩
  | cons p rest ih =>
    intro st
    obtain ⟨n1, h1, g1⟩ := dispatchPost_posts_log net cfg now st.store p
    obtain ⟨n2, h2, g2⟩ := ih (stepPost net cfg now st p)
    refine ⟨n1 ++ n2, ?_, ?_⟩
    · simp only [runLoop]
      rw [h2, stepPost_eq]
      simp only [h1]
      rw [List.append_assoc]
    · intro r hr
      rcases List.mem_append.mp hr with hr1 | hr2
      · exact g1 r hr1
      · exact g2 r hr2

theorem setStatus_eraseStatus (cal : List Post) (cid st : String) :
    (setStatus cal cid st).map eraseStatus = cal.map eraseStatus := by
  induction cal with
  | nil => rfl
  | cons q qs ih =>
    simp only [setStatus, List.map] at ih ⊢
    rw [ih]
    by_cases hid : q.id = cid
    · rw [if_pos hid]
      rfl
    · rw [if_neg hid]

theorem dispatchPost_eraseStatus (net : Net) (cfg : GoogleCfg) (now : Nat)
    (sb : Store) (p : Post) :
    ((dispatchPost net cfg now sb p).1.calendar).map eraseStatus =
      sb.calendar.map eraseStatus := by
  rcases dispatchPost_calendar_cases net cfg now sb p with hc | hc | hc
  · rw [hc]
  · rw [hc]
    exact setStatus_eraseStatus sb.calendar p.id "posted"
  · rw [hc]
    exact setStatus_eraseStatus sb.calendar p.id "failed"

theorem runLoop_eraseStatus (net : Net) (cfg : GoogleCfg) (now : Nat) :
    ∀ (ps : List Post) (st : RunState),
      ((runLoop net cfg now ps st).store.calendar).map eraseStatus =
        (st.store.calendar).map eraseStatus := by
  intro ps
  induction ps with
  | nil => intro st; rfl
  | cons p rest ih =>
    intro st
    simp only [runLoop]
    rw [ih, stepPost_eq]
    exact dispatchPost_eraseStatus net cfg now st.store p

theorem countP_eq_one_of_nodup_ids (l : List Post) (p : Post) (f : Post → Bool)
    (hn : (l.map Post.id).Nodup) (hp : p ∈ l) (hf : f p = true)
    (hid : ∀ q ∈ l, f q = true → q.id = p.id) : l.countP f = 1 := by
  obtain ⟨l1, l2, rfl⟩ := List.append_of_mem hp
  rw [List.countP_append, List.countP_cons, hf]
  rw [List.map_append, List.map_cons, List.nodup_append] at hn
  obtain ⟨hn1, hn2, hdisj⟩ := hn
  have hz1 : l1.countP f = 0 := by
    rw [List.countP_eq_zero]
    intro q hq hfq
    have hqid := hid q (List.mem_append_left _ hq) hfq
    exact hdisj (List.mem_map_of_mem Post.id hq) (by rw [hqid]; exact List.mem_cons_self _ _)
  have hz2 : l2.countP f = 0 := by
    rw [List.countP_eq_zero]
    intro q hq hfq
    have hqid := hid q (List.mem_append_right _ (List.mem_cons_of_mem _ hq)) hfq
    rw [List.nodup_cons] at hn2
    exact hn2.1 (by rw [← hqid]; exact List.mem_map_of_mem Post.id hq)
  rw [hz1, hz2]
  simp

theorem mem_get_pending_posts (sb : Store) (now : Nat) (q : Post) :
    q ∈ get_pending_posts sb now ↔
      q ∈ sb.calendar ∧ q.status = "pending" ∧ q.scheduled_at ≤ now := by
  unfold get_pending_posts
  rw [List.mem_filter]
  simp [Bool.and_eq_true, beq_iff_eq, decide_eq_true_eq, and_assoc]

/-! ### Dispatcher claims -/

/-- Claim C2: failures are isolated per post — the outcome of every
selected post is `postOutcome`, a function of that post, the connection
table, and the network alone, and the batch counters are exactly the
per-post outcomes tallied over the whole selection (so no adapter
exception aborts the remaining posts); concretely, the five-post scenario
of spec §8 with one simulated Facebook timeout and one missing Instagram
image yields posted 3, failed 2, skipped 0. -/
theorem per_post_isolation_and_counts :
    (∀ (net : Net) (cfg : GoogleCfg) (now : Nat) (sb : Store),
      (run net cfg now sb).success =
        (get_pending_posts sb now).countP
          (fun p => decide (postOutcome net cfg sb.connections p = Outcome.posted)) ∧
      (run net cfg now sb).failed =
        (get_pending_posts sb now).countP
          (fun p => decide (postOutcome net cfg sb.connections p = Outcome.failed)) ∧
      (run net cfg now sb).skipped =
        (get_pending_posts sb now).countP
          (fun p => decide (postOutcome net cfg sb.connections p = Outcome.skipped))) ∧
    ((run scnNet exCfg 100 scnStore).success = 3 ∧
     (run scnNet exCfg 100 scnStore).failed = 2 ∧
     (run scnNet exCfg 100 scnStore).skipped = 0 ∧
     (run scnNet exCfg 100 scnStore).store.calendar.map Post.status =
       ["posted", "failed", "posted", "posted", "failed"]) := by
  constructor
  · intro net cfg now sb
    refine ⟨?_, ?_, ?_⟩
    · unfold run
      rw [runLoop_success]
      simp
    · unfold run
      rw [runLoop_failed]
      simp
    · unfold run
      rw [runLoop_skipped]
      simp
  · exact ⟨rfl, rfl, rfl, rfl⟩

/-- Counterexample to the second half of claim C3: processing one eligible
Facebook post, the very first dispatcher effect is the publish network
request; the status update out of `pending` happens only afterwards, once
the publish call has returned. -/
theorem status_update_not_first_effect :
    (run okNet exCfg 100 onePostStore).trace =
      [Event.netRequest { url := "https://graph.facebook.com/v19.0/PAGE/feed",
                          params := [("message", "hello"), ("access_token", "TOK")] },
       Event.statusUpdate "p9" "posted",
       Event.insertRow { calendar_id := "p9", client_id := "c1", platform := "facebook",
                         external_post_id := some "EXT9", posted_at := some 100,
                         error_message := none }] ∧
    (run okNet exCfg 100 onePostStore).trace.head?.map Event.isStatusUpdate = some false :=
  ⟨rfl, rfl⟩

/-- Claim C3 as amended: dispatch selection is idempotent across runs —
with distinct calendar ids, every selected pending post with a registered
handler is status-transitioned exactly once by the first run, the second
run against the resulting store selects no post with that id, and performs
no further status update on it; however the transition out of `pending` is
not the first effect of processing a post — the publish call precedes it
(see the counterexample). -/
theorem idempotent_selection_amended
    (net1 net2 : Net) (cfg : GoogleCfg) (now : Nat) (sb : Store) (p : Post)
    (hnd : (sb.calendar.map Post.id).Nodup)
    (hp : p ∈ get_pending_posts sb now)
    (hh : hasHandler p.platform = true) :
    countSU (run net1 cfg now sb).trace p.id = 1 ∧
    (∀ q ∈ get_pending_posts (run net1 cfg now sb).store now, q.id ≠ p.id) ∧
    countSU (run net2 cfg now (run net1 cfg now sb).store).trace p.id = 0 := by
  have hnp : ((get_pending_posts sb now).map Post.id).Nodup := by
    refine List.Nodup.sublist (List.Sublist.map Post.id ?_) hnd
    exact List.filter_sublist sb.calendar
  have hterm : terminalAt (run net1 cfg now sb).store p.id :=
    runLoop_establishes net1 cfg now (get_pending_posts sb now) _ p hp hh
  have hqne : ∀ q ∈ get_pending_posts (run net1 cfg now sb).store now, q.id ≠ p.id := by
    intro q hq hqp
    obtain ⟨hqmem, hqpend, _⟩ := (mem_get_pending_posts _ now q).mp hq
    rcases hterm q hqmem hqp with hs | hs <;> rw [hqpend] at hs <;> simp at hs
  refine ⟨?_, hqne, ?_⟩
  · unfold run
    rw [runLoop_countSU]
    have hzero : countSU (RunState.mk sb 0 0 0 []).trace p.id = 0 := rfl
    rw [hzero]
    rw [Nat.zero_add]
    refine countP_eq_one_of_nodup_ids _ p _ hnp hp ?_ ?_
    · simp [hh]
    · intro q hq hfq
      simp only [Bool.and_eq_true, decide_eq_true_eq] at hfq
      exact hfq.1
  · unfold run
    rw [runLoop_countSU]
    have hzero :
        countSU (RunState.mk (run net1 cfg now sb).store 0 0 0 []).trace p.id = 0 := rfl
    rw [hzero, Nat.zero_add]
    rw [List.countP_eq_zero]
    intro q hq
    have hne := hqne q hq
    simp [hne]

/-- Witness for C3 (amended): one pending Facebook post with a connection;
the first run updates its status once, the second run updates it zero
times. -/
theorem idempotent_selection_amended_witness :
    countSU (run okNet exCfg 100 onePostStore).trace "p9" = 1 ∧
    countSU (run okNet exCfg 100 (run okNet exCfg 100 onePostStore).store).trace "p9" = 0 := by
  have h := idempotent_selection_amended okNet okNet exCfg 100 onePostStore
    (mkPost "p9" "c1" "facebook" "hello" none 50 "pending")
    (by decide) (by decide) (by decide)
  exact ⟨h.1, h.2.2⟩

/-- Counterexample to claim C4 as stated: after a successful dispatch the
post record itself carries neither the external id nor an error message —
only its status changed; the external id is recorded on the companion
`sprintai_posts` row. -/
theorem external_id_not_on_calendar_record :
    (run okNet exCfg 100 onePostStore).store.calendar.map Post.status = ["posted"] ∧
    (run okNet exCfg 100 onePostStore).store.calendar.map Post.external_post_id = [none] ∧
    (run okNet exCfg 100 onePostStore).store.calendar.map Post.error_message = [none] ∧
    (run okNet exCfg 100 onePostStore).store.posts_log.map PostRow.external_post_id =
      [some "EXT9"] :=
  ⟨rfl, rfl, rfl, rfl⟩

/-- Claim C4 as amended: a dispatcher run changes nothing on the calendar
rows except their status, and every companion `sprintai_posts` row it
appends carries exactly one of an external post id (with `posted_at`) or an
error message truncated to 2000 characters (with neither id nor
timestamp). -/
theorem companion_row_xor_invariant
    (net : Net) (cfg : GoogleCfg) (now : Nat) (sb : Store) :
    ((run net cfg now sb).store.calendar.map eraseStatus = sb.calendar.map eraseStatus) ∧
    ∃ new, (run net cfg now sb).store.posts_log = sb.posts_log ++ new ∧
      ∀ r ∈ new, goodRow now r := by
  constructor
  · unfold run
    exact runLoop_eraseStatus net cfg now (get_pending_posts sb now) _
  · unfold run
    exact runLoop_posts_log net cfg now (get_pending_posts sb now) _

end PostScheduler

end SprintAI
